import Mathlib

/-!
Verification of the KeyBlitz training core against its specification.

The development shallowly embeds the four core modules:
  * the SRS engine (`src/core/srs.js`): `updateCommandState`,
    `shouldReviewCommand`, `calculateNextReview`;
  * the command queue (`src/core/queue.js`): `getCommandWeights`,
    `selectNextCommand`;
  * the scoring engine: `calculateScore`, `updateCombo`,
    `getComboMultiplier`, `SessionScorer.recordAttempt`;
  * the countdown timer: a state machine over
    start / stop / pause / addTime / tick events.

JavaScript numbers are modelled as rationals (`ℚ`), integer-valued
counters as `ℤ`; fields that may be `undefined`/`null` in JavaScript are
modelled as `Option`.  Where the source uses `x ?? 0`, the model uses
`Option.getD x 0`; where the source tests truthiness (`x &&`, `x ||`),
the model tests against the falsy values explicitly.
-/

namespace KeyBlitz

/-! ### SRS engine (src/core/srs.js) -/

/-- `SRS_INTERVALS`: number of commands between reviews for each level. -/
def SRS_INTERVALS : List ℚ := [0, 3, 10, 25, 50, 100]

/-- `SUCCESSES_TO_ADVANCE = 3`. -/
def SUCCESSES_TO_ADVANCE : ℤ := 3

/-- `MAX_LEVEL = 5`. -/
def MAX_LEVEL : ℤ := 5

/-- A command's persistent SRS state.  `level`, `successes` and `failures`
are `Option` because the source defensively defaults them with `?? 0`;
`lastSeen` starts as `null` and `nextReview` may be unset. -/
structure CmdState where
  level : Option ℤ
  successes : Option ℤ
  failures : Option ℤ
  lastSeen : Option ℚ
  nextReview : Option ℚ
deriving DecidableEq, Repr

/-- `SRS_INTERVALS[level] ?? 0`: a JavaScript out-of-range (or negative,
or fractional) index yields `undefined`, defaulted to 0. -/
def srsIntervalAt (level : ℤ) : ℚ :=
  if level < 0 then 0 else SRS_INTERVALS.getD level.toNat 0

/-- `calculateNextReview(level, currentTime)` from src/core/srs.js:
level 0 reviews immediately; otherwise add
`interval * 2.5 seconds * 1000` milliseconds. -/
def calculateNextReview (level : ℤ) (currentTime : ℚ) : ℚ :=
  if level = 0 then
    currentTime
  else
    let interval := srsIntervalAt level
    let estimatedSecondsPerCommand : ℚ := 5 / 2
    let millisecondsUntilReview := interval * estimatedSecondsPerCommand * 1000
    currentTime + millisecondsUntilReview

/-- `updateCommandState(command, isCorrect, currentTime)` from
src/core/srs.js: on a correct answer increment `successes` and advance a
level (resetting `successes`) once `successes >= 3` while below level 5;
on a wrong answer hard-reset to level 0 and count the failure. -/
def updateCommandState (command : CmdState) (isCorrect : Bool)
    (currentTime : ℚ) : CmdState :=
  let now := currentTime
  let currentLevel := command.level.getD 0
  let currentSuccesses := command.successes.getD 0
  let currentFailures := command.failures.getD 0
  let res :=
    if isCorrect then
      let ns := currentSuccesses + 1
      if SUCCESSES_TO_ADVANCE ≤ ns ∧ currentLevel < MAX_LEVEL then
        (currentLevel + 1, 0, currentFailures)
      else
        (currentLevel, ns, currentFailures)
    else
      (0, 0, currentFailures + 1)
  { command with
    level := some res.1
    successes := some res.2.1
    failures := some res.2.2
    lastSeen := some now
    nextReview := some (calculateNextReview res.1 now) }

/-- `shouldReviewCommand(command, commandsSinceLastSeen, currentTime)`
from src/core/srs.js.  Level 0 is always due.  Otherwise due when enough
commands have passed (`commandsSinceLastSeen >= SRS_INTERVALS[level] ?? 0`)
or when `command.nextReview && currentTime >= command.nextReview`; note the
truthiness test, under which an unset `nextReview` — and also a
`nextReview` equal to 0 — disables the time-based check. -/
def shouldReviewCommand (command : CmdState) (commandsSinceLastSeen : ℚ)
    (currentTime : ℚ) : Bool :=
  if command.level = some 0 then
    true
  else
    let interval : ℚ :=
      match command.level with
      | none => 0
      | some l => srsIntervalAt l
    let hasEnoughCommandsPassed : Bool := decide (interval ≤ commandsSinceLastSeen)
    let hasEnoughTimePassed : Bool :=
      match command.nextReview with
      | none => false
      | some nr => if nr = 0 then false else decide (nr ≤ currentTime)
    hasEnoughCommandsPassed || hasEnoughTimePassed

/-! ### Scoring and combo system -/

/-- `getComboMultiplier(combo)`: `Math.floor(combo / 5) + 1`, with a
negative combo clamped to 0 first. -/
def getComboMultiplier (combo : ℚ) : ℤ :=
  let combo := if combo < 0 then 0 else combo
  ⌊combo / 5⌋ + 1

/-- `calculateScore(timeRemaining, maxTime, level, combo)`: clamp the
inputs, then `floor((100 + timeBonus) * levelMultiplier * comboMultiplier)`
with `timeBonus = (timeRemaining / maxTime) * 50`,
`levelMultiplier = level + 1` and the combo multiplier above. -/
def calculateScore (timeRemaining maxTime level combo : ℚ) : ℤ :=
  let timeRemaining := if timeRemaining < 0 then 0 else timeRemaining
  let maxTime := if maxTime ≤ 0 then 1 else maxTime
  let level := if level < 0 then 0 else level
  let level := if 5 < level then 5 else level
  let combo := if combo < 0 then 0 else combo
  let basePoints : ℚ := 100
  let timeBonus := timeRemaining / maxTime * 50
  let levelMultiplier := level + 1
  let comboMultiplier := getComboMultiplier combo
  ⌊(basePoints + timeBonus) * levelMultiplier * (comboMultiplier : ℚ)⌋

/-- `updateCombo(isCorrect, currentCombo)`: increment on success, reset
to 0 on failure; a negative input combo is clamped to 0 first. -/
def updateCombo (isCorrect : Bool) (currentCombo : ℚ) : ℚ :=
  let currentCombo := if currentCombo < 0 then 0 else currentCombo
  if isCorrect then currentCombo + 1 else 0

/-- The mutable fields of a `SessionScorer` instance. -/
structure SessionScorer where
  totalScore : ℤ
  currentCombo : ℚ
  bestCombo : ℚ
  correctCount : ℕ
  incorrectCount : ℕ
deriving DecidableEq, Repr

/-- The record returned by `SessionScorer.recordAttempt`. -/
structure AttemptResult where
  score : ℤ
  combo : ℚ
  totalScore : ℤ
  isCorrect : Bool
deriving DecidableEq, Repr

/-- `SessionScorer.recordAttempt(isCorrect, timeRemaining, maxTime, level)`:
update the combo, track the best combo, bump the appropriate counter, and
on success add `calculateScore` (computed with the post-update combo) to
the running total.  Returns the updated scorer together with the result
object. -/
def SessionScorer.recordAttempt (s : SessionScorer) (isCorrect : Bool)
    (timeRemaining maxTime level : ℚ) : SessionScorer × AttemptResult :=
  let newCombo := updateCombo isCorrect s.currentCombo
  let newBest := if s.bestCombo < newCombo then newCombo else s.bestCombo
  if isCorrect then
    let earnedScore := calculateScore timeRemaining maxTime level newCombo
    ({ s with
        currentCombo := newCombo
        bestCombo := newBest
        correctCount := s.correctCount + 1
        totalScore := s.totalScore + earnedScore },
      ⟨earnedScore, newCombo, s.totalScore + earnedScore, true⟩)
  else
    ({ s with
        currentCombo := newCombo
        bestCombo := newBest
        incorrectCount := s.incorrectCount + 1 },
      ⟨0, newCombo, s.totalScore, false⟩)

/-- C8 formula, written from the specification's words: clamp
`timeRemaining` to at least 0, treat `maxTime ≤ 0` as 1, clamp `level`
into `[0, 5]`, clamp `combo` to at least 0, then
`floor((100 + (tr / mt) * 50) * (level + 1) * (floor(combo / 5) + 1))`. -/
def specScore (timeRemaining maxTime level combo : ℚ) : ℤ :=
  let ctr := max 0 timeRemaining
  let cmt := if maxTime ≤ 0 then 1 else maxTime
  let clvl := min 5 (max 0 level)
  let cc := max 0 combo
  ⌊(100 + ctr / cmt * 50) * (clvl + 1) * ((⌊cc / 5⌋ : ℚ) + 1)⌋

/-! ### Command queue (src/core/queue.js)

`getCommandWeights` and `selectNextCommand` take loosely typed
JavaScript arguments: `JsArg` models the `Array.isArray` check, a
command's `level` is `Option ℚ` (`none` models `typeof level !==
'number'`), and `nextReview` is `Option ℚ` (`none` models
undefined/null).  `Math.random()`-dependent choices are exposed as a
`Rand` record so claims quantify over every outcome of the draws;
`Math.floor(Math.random() * n)` always lands in `[0, n)`, modelled by
reduction modulo `n`. -/

/-- An element of the `commands` array passed to the queue. -/
structure QCommand where
  keys : String
  level : Option ℚ
  nextReview : Option ℚ
deriving DecidableEq, Repr

/-- A command as it flows through `selectNextCommand` after the mapping
step: the shallow copy `{...cmd, originalIndex: index}`. -/
structure DueCommand where
  keys : String
  level : Option ℚ
  nextReview : Option ℚ
  originalIndex : ℕ
deriving DecidableEq, Repr

/-- `{...cmd, originalIndex: index}`: a shallow copy of `cmd` extended
with its index in the input array. -/
def mkDue (c : QCommand) (i : ℕ) : DueCommand :=
  ⟨c.keys, c.level, c.nextReview, i⟩

/-- `commands.map((cmd, index) => ({ ...cmd, originalIndex: index }))`,
with `k` the index of the first element. -/
def withIndex : List QCommand → ℕ → List DueCommand
  | [], _ => []
  | c :: cs, i => mkDue c i :: withIndex cs (i + 1)

/-- The due filter: keep a command when `nextReview` is
undefined/null, or when `nextReview <= now`. -/
def isDue (now : ℚ) (d : DueCommand) : Bool :=
  match d.nextReview with
  | none => true
  | some nr => decide (nr ≤ now)

/-- The `TypeError` message for a command without a numeric level;
`cmd.keys || 'unknown'` replaces a falsy (empty or missing) key. -/
def missingLevelMsg (keys : String) : String :=
  "Command \"" ++ (if keys = "" then "unknown" else keys) ++
    "\" missing level property"

/-- The body of `getCommandWeights`: map each command to
`1 / (level + 1)`, raising a `TypeError` naming the first command whose
`level` is not a number.  (The model is exact on the levels that occur
in SRS states; for `level = -1` JavaScript would produce `Infinity`
where `ℚ` yields 0, which no claim depends on.) -/
def levelWeights : List (String × Option ℚ) → Except String (List ℚ)
  | [] => .ok []
  | (k, none) :: _ => .error (missingLevelMsg k)
  | (_, some l) :: rest =>
    match levelWeights rest with
    | .error e => .error e
    | .ok ws => .ok (1 / (l + 1) :: ws)

/-- A JavaScript argument that may fail the `Array.isArray` check. -/
inductive JsArg (α : Type) where
  | arr (xs : List α)
  | notArray
deriving DecidableEq, Repr

/-- `getCommandWeights(commands)` from src/core/queue.js. -/
def getCommandWeights (commands : JsArg QCommand) : Except String (List ℚ) :=
  match commands with
  | .notArray => .error "commands must be an array"
  | .arr xs => levelWeights (xs.map fun c => (c.keys, c.level))

/-- Step 1 of `selectNextCommand`: the due commands, each carrying its
original index. -/
def dueOf (cmds : List QCommand) (now : ℚ) : List DueCommand :=
  (withIndex cmds 0).filter (isDue now)

/-- Steps 2 of `selectNextCommand`: exclude the current command, falling
back to all due commands when that exclusion empties the pool. -/
def poolOf (cmds : List QCommand) (currentCommandIndex : Option ℕ)
    (now : ℚ) : List DueCommand :=
  let dueCommands := dueOf cmds now
  let availableCommands := dueCommands.filter fun d =>
    decide (some d.originalIndex ≠ currentCommandIndex)
  if 0 < availableCommands.length then availableCommands else dueCommands

/-- Step 3 of `selectNextCommand`: the level-0 members of the pool. -/
def level0Of (cmds : List QCommand) (currentCommandIndex : Option ℕ)
    (now : ℚ) : List DueCommand :=
  (poolOf cmds currentCommandIndex now).filter fun d =>
    decide (d.level = some 0)

/-- The weighted-selection loop: walk the pool subtracting each weight
from the scaled random draw, returning the first command at which the
draw drops to 0 or below. -/
def scanPick : List (DueCommand × ℚ) → ℚ → Option DueCommand
  | [], _ => none
  | (c, w) :: rest, r => if r - w ≤ 0 then some c else scanPick rest (r - w)

/-- Outcomes of the internal `Math.random()` draws: `i0` drives the
uniform choice among level-0 candidates, `iu` the defensive uniform
fallback, and `r` the weighted draw. -/
structure Rand where
  i0 : ℕ
  iu : ℕ
  r : ℚ
deriving DecidableEq, Repr

/-- `selectNextCommand(commands, currentCommandIndex)` from
src/core/queue.js, with the clock and the random draws as explicit
arguments. -/
def selectNextCommand (commands : JsArg QCommand)
    (currentCommandIndex : Option ℕ) (now : ℚ) (rand : Rand) :
    Except String (Option DueCommand) :=
  match commands with
  | .notArray => .error "commands must be an array"
  | .arr cmds =>
    if cmds.length = 0 then .ok none
    else
      let dueCommands := dueOf cmds now
      if dueCommands.length = 0 then .ok none
      else
        let commandPool := poolOf cmds currentCommandIndex now
        let level0Commands := level0Of cmds currentCommandIndex now
        if h : 0 < level0Commands.length then
          .ok (some (level0Commands.get
            ⟨rand.i0 % level0Commands.length, Nat.mod_lt _ h⟩))
        else
          match levelWeights (commandPool.map fun d => (d.keys, d.level)) with
          | .error e => .error e
          | .ok weights =>
            let totalWeight := weights.foldl (fun sum w => sum + w) 0
            if totalWeight = 0 then
              if hp : 0 < commandPool.length then
                .ok (some (commandPool.get
                  ⟨rand.iu % commandPool.length, Nat.mod_lt _ hp⟩))
              else
                .ok none
            else
              match scanPick (commandPool.zip weights) (rand.r * totalWeight) with
              | some c => .ok (some c)
              | none =>
                if hp : commandPool ≠ [] then
                  .ok (some (commandPool.getLast hp))
                else
                  .ok none

/-! ### Countdown timer (`createTimer` in the timer module)

The closure state of `createTimer(timeLimit, onTick, onComplete)` is
modelled as an explicit record; `Date.now()` becomes an explicit clock
argument on every event.  `intervalActive` models whether `intervalId`
is non-null — the periodic `tick` can only fire while it is set, and it
is set by `start` and cleared by `pause` and `stop`.  `start` fires one
synchronous initial tick, as the source does. -/

structure TimerState where
  timeLimit : ℚ
  startTime : Option ℚ
  remainingTime : ℚ
  isRunning : Bool
  isPaused : Bool
  pausedAt : Option ℚ
  elapsedBeforePause : ℚ
  intervalActive : Bool
deriving DecidableEq, Repr

/-- The state captured when `createTimer(timeLimit, ...)` returns. -/
def initTimer (timeLimit : ℚ) : TimerState :=
  { timeLimit := timeLimit
    startTime := none
    remainingTime := timeLimit
    isRunning := false
    isPaused := false
    pausedAt := none
    elapsedBeforePause := 0
    intervalActive := false }

/-- `updateRemaining()`: while running and not paused, recompute
`remainingTime = max(0, timeLimit - elapsed - elapsedBeforePause)` where
`elapsed = (now - startTime) / 1000`; otherwise return the stored value.
Returns the value together with the updated state. -/
def updateRemaining (s : TimerState) (now : ℚ) : ℚ × TimerState :=
  if !s.isRunning || s.isPaused then
    (s.remainingTime, s)
  else
    let elapsed := (now - s.startTime.getD 0) / 1000
    let r := max 0 (s.timeLimit - elapsed - s.elapsedBeforePause)
    (r, { s with remainingTime := r })

/-- `stop()`: clear the interval, leave running/paused, zero the
remaining time. -/
def stopTimer (s : TimerState) : TimerState :=
  { s with
    intervalActive := false
    isRunning := false
    isPaused := false
    remainingTime := 0 }

/-- `tick()`: only fires while the interval is live; refreshes the
remaining time and stops the timer on expiry (the `onComplete` callback
itself is outside this model). -/
def tickTimer (s : TimerState) (now : ℚ) : TimerState :=
  if s.intervalActive then
    if (updateRemaining s now).1 ≤ 0 then stopTimer (updateRemaining s now).2
    else (updateRemaining s now).2
  else
    s

/-- `start()`: no-op while running un-paused; resume from pause or do a
fresh start, then mark running, (re)arm the interval and fire the
initial synchronous tick. -/
def startTimer (s : TimerState) (now : ℚ) : TimerState :=
  if s.isRunning && !s.isPaused then
    s
  else
    let s1 :=
      if s.isPaused then
        { s with isPaused := false, startTime := some now }
      else
        { s with
          startTime := some now
          remainingTime := s.timeLimit
          elapsedBeforePause := 0 }
    let s2 := { s1 with isRunning := true, intervalActive := true }
    tickTimer s2 now

/-- `pause()`: no-op unless running un-paused; freeze, record the pause
time, accumulate elapsed time and clear the interval. -/
def pauseTimer (s : TimerState) (now : ℚ) : TimerState :=
  if !s.isRunning || s.isPaused then
    s
  else
    { s with
      isPaused := true
      pausedAt := some now
      elapsedBeforePause := s.elapsedBeforePause + (now - s.startTime.getD 0) / 1000
      intervalActive := false }

/-- `addTime(seconds)`: shift the total time and clamp the stored
remaining time at 0. -/
def addTime (s : TimerState) (seconds : ℚ) : TimerState :=
  { s with
    timeLimit := s.timeLimit + seconds
    remainingTime := max 0 (s.remainingTime + seconds) }

/-- `getRemaining()`: frozen value while paused, otherwise the value of
`updateRemaining()` (which is the stored value when not running). -/
def getRemaining (s : TimerState) (now : ℚ) : ℚ :=
  if s.isPaused then s.remainingTime else (updateRemaining s now).1

/-- One externally observable timer event: a lifecycle call at some
clock reading, or a periodic tick firing at some clock reading. -/
inductive TimerEv where
  | start (now : ℚ)
  | stop
  | pause (now : ℚ)
  | addTime (seconds : ℚ)
  | tick (now : ℚ)
deriving DecidableEq, Repr

/-- Apply one event to the timer state. -/
def applyEv (s : TimerState) : TimerEv → TimerState
  | .start now => startTimer s now
  | .stop => stopTimer s
  | .pause now => pauseTimer s now
  | .addTime sec => addTime s sec
  | .tick now => tickTimer s now

/-- Run a sequence of timer events. -/
def runTimer (s : TimerState) : List TimerEv → TimerState
  | [] => s
  | ev :: evs => runTimer (applyEv s ev) evs

/-! ### Theorems -/

/-! ### Theorems for the SRS transition claims -/

/-- C1: `updateCommandState(state, false, t)` hard-resets: level 0,
successes 0, failures incremented, `lastSeen = t`, and
`nextReview = calculateNextReview(0, t) = t`, regardless of the
starting level. -/
theorem srs_failure_hard_reset (state : CmdState) (t : ℚ) (f : ℤ)
    (hf : state.failures = some f) :
    (updateCommandState state false t).level = some 0 ∧
    (updateCommandState state false t).successes = some 0 ∧
    (updateCommandState state false t).failures = some (f + 1) ∧
    (updateCommandState state false t).lastSeen = some t ∧
    (updateCommandState state false t).nextReview =
      some (calculateNextReview 0 t) ∧
    calculateNextReview 0 t = t := by
  simp [updateCommandState, hf, calculateNextReview]

/-- Witness for C1 at a concrete state. -/
theorem srs_failure_hard_reset_witness :
    (updateCommandState ⟨some 5, some 2, some 4, none, none⟩ false 7).level = some 0 ∧
    (updateCommandState ⟨some 5, some 2, some 4, none, none⟩ false 7).successes = some 0 ∧
    (updateCommandState ⟨some 5, some 2, some 4, none, none⟩ false 7).failures = some (4 + 1) ∧
    (updateCommandState ⟨some 5, some 2, some 4, none, none⟩ false 7).lastSeen = some 7 ∧
    (updateCommandState ⟨some 5, some 2, some 4, none, none⟩ false 7).nextReview =
      some (calculateNextReview 0 7) ∧
    calculateNextReview 0 7 = 7 :=
  srs_failure_hard_reset ⟨some 5, some 2, some 4, none, none⟩ 7 4 rfl

/-- C2: `updateCommandState` preserves `0 ≤ level ≤ 5`; whenever the level
changes, the returned successes is 0; and a correct answer at level 5
leaves the level at 5 (so repeated correct transitions at level 5 never
exceed 5). -/
theorem srs_level_invariant (state : CmdState) (l : ℤ) (isCorrect : Bool)
    (t : ℚ) (hl : state.level = some l) (h0 : 0 ≤ l) (h5 : l ≤ 5) :
    ∃ l2, (updateCommandState state isCorrect t).level = some l2 ∧
      0 ≤ l2 ∧ l2 ≤ 5 ∧
      (l2 ≠ l → (updateCommandState state isCorrect t).successes = some 0) ∧
      (l = 5 → isCorrect = true → l2 = 5) := by
  obtain ⟨lev, suc, fl, ls, nr⟩ := state
  simp only [CmdState.mk.injEq] at hl ⊢
  subst hl
  cases isCorrect with
  | false =>
    refine ⟨0, ?_, le_refl 0, by norm_num, fun _ => ?_, fun _ h => by cases h⟩ <;>
      simp [updateCommandState]
  | true =>
    by_cases hadv : SUCCESSES_TO_ADVANCE ≤ suc.getD 0 + 1 ∧ l < MAX_LEVEL
    · have hlt : l < 5 := hadv.2
      refine ⟨l + 1, ?_, by omega, by omega, fun _ => ?_, fun hl5 _ => by omega⟩ <;>
        simp [updateCommandState, if_pos hadv]
    · refine ⟨l, ?_, h0, h5, fun hne => absurd rfl hne, fun hl5 _ => hl5⟩
      simp [updateCommandState, if_neg hadv]

/-- Witness for C2 at a concrete state (level 5, correct answer). -/
theorem srs_level_invariant_witness :
    ∃ l2, (updateCommandState ⟨some 5, some 2, some 0, none, none⟩ true 3).level = some l2 ∧
      0 ≤ l2 ∧ l2 ≤ 5 ∧
      (l2 ≠ 5 → (updateCommandState ⟨some 5, some 2, some 0, none, none⟩ true 3).successes = some 0) ∧
      ((5 : ℤ) = 5 → true = true → l2 = 5) :=
  srs_level_invariant ⟨some 5, some 2, some 0, none, none⟩ 5 true 3 rfl
    (by norm_num) (by norm_num)

/-- C3: from `successes = 0` and `level = l < 5`, three consecutive
correct transitions land at `level = l + 1` with `successes = 0`. -/
theorem srs_three_strikes_advance (state : CmdState) (l : ℤ)
    (t1 t2 t3 : ℚ) (hl : state.level = some l) (hs : state.successes = some 0)
    (hlt : l < 5) :
    (updateCommandState (updateCommandState
        (updateCommandState state true t1) true t2) true t3).level = some (l + 1) ∧
    (updateCommandState (updateCommandState
        (updateCommandState state true t1) true t2) true t3).successes = some 0 := by
  obtain ⟨lev, suc, fl, ls, nr⟩ := state
  simp only [CmdState.mk.injEq] at hl hs
  subst hl
  subst hs
  have hlt5 : (l < MAX_LEVEL) = True := by
    simp [MAX_LEVEL, hlt]
  constructor <;>
    norm_num [updateCommandState, SUCCESSES_TO_ADVANCE, hlt5]

/-- Witness for C3 at a concrete state (level 2). -/
theorem srs_three_strikes_advance_witness :
    (updateCommandState (updateCommandState
        (updateCommandState ⟨some 2, some 0, some 1, none, none⟩ true 1) true 2) true 3).level
        = some (2 + 1) ∧
    (updateCommandState (updateCommandState
        (updateCommandState ⟨some 2, some 0, some 1, none, none⟩ true 1) true 2) true 3).successes
        = some 0 :=
  srs_three_strikes_advance ⟨some 2, some 0, some 1, none, none⟩ 2 1 2 3 rfl rfl
    (by norm_num)

/-! ### Claim C9: the due predicate of `shouldReviewCommand`

The claim reads the time-based check as "`nextReview` is set and
`now >= nextReview`", but the source tests `command.nextReview &&`, a
truthiness check: a `nextReview` equal to 0 is set yet falsy, so the
time-based check is skipped for it.  The claim as stated is therefore
refuted at `nextReview = 0`, and holds once "set" is strengthened to
"set and nonzero". -/

/-- C9 counterexample: at level 1 with `nextReview = some 0`, zero
commands since last seen and `now = 100`, the claimed disjunction is
true (`nextReview` is set and `100 ≥ 0`) yet the code returns `false`,
because `0` is falsy in the `command.nextReview &&` test. -/
theorem shouldReview_counterexample :
    ¬ (shouldReviewCommand ⟨some 1, some 0, some 0, none, some 0⟩ 0 100 = true ↔
        (srsIntervalAt 1 ≤ 0 ∨
          ∃ nr, (⟨some 1, some 0, some 0, none, some 0⟩ : CmdState).nextReview = some nr ∧
            nr ≤ 100)) := by
  intro h
  have hrhs : srsIntervalAt 1 ≤ (0 : ℚ) ∨
      ∃ nr, (⟨some 1, some 0, some 0, none, some 0⟩ : CmdState).nextReview = some nr ∧
        nr ≤ (100 : ℚ) :=
    Or.inr ⟨0, rfl, by norm_num⟩
  have hlhs := h.mpr hrhs
  have : shouldReviewCommand ⟨some 1, some 0, some 0, none, some 0⟩ 0 100 = false := by
    simp [shouldReviewCommand, srsIntervalAt, SRS_INTERVALS]
  rw [this] at hlhs
  cases hlhs

/-- C9 amended: level 0 is always due; for `1 ≤ level ≤ 5` the command is
due exactly when `commandsSinceLastSeen ≥ SRS_INTERVALS[level]` or
`nextReview` is set to a truthy (nonzero) value with `now ≥ nextReview`. -/
theorem shouldReview_characterisation (state : CmdState) (l : ℤ)
    (cnt now : ℚ) (hl : state.level = some l) :
    (l = 0 → shouldReviewCommand state cnt now = true) ∧
    (1 ≤ l → l ≤ 5 →
      (shouldReviewCommand state cnt now = true ↔
        (srsIntervalAt l ≤ cnt ∨
          ∃ nr, state.nextReview = some nr ∧ nr ≠ 0 ∧ nr ≤ now))) := by
  constructor
  · intro h0
    subst h0
    simp [shouldReviewCommand, hl]
  · intro h1 _
    have hne0 : l ≠ 0 := by omega
    cases hnr : state.nextReview with
    | none =>
      simp [shouldReviewCommand, hl, hne0, hnr]
    | some nr =>
      by_cases hz : nr = 0
      · subst hz
        simp only [shouldReviewCommand, hl, hnr]
        simp [hne0]
      · simp only [shouldReviewCommand, hl, hnr]
        simp [hne0, hz]

/-- Witness for C9 at concrete states: a level-0 command is due, and a
level-3 command with 25 commands elapsed is due. -/
theorem shouldReview_characterisation_witness :
    (((0 : ℤ) = 0 → shouldReviewCommand ⟨some 0, some 0, some 0, none, none⟩ 0 0 = true) ∧
      ((1 : ℤ) ≤ 0 → (0 : ℤ) ≤ 5 →
        (shouldReviewCommand ⟨some 0, some 0, some 0, none, none⟩ 0 0 = true ↔
          (srsIntervalAt 0 ≤ 0 ∨
            ∃ nr, (⟨some 0, some 0, some 0, none, none⟩ : CmdState).nextReview = some nr ∧
              nr ≠ 0 ∧ nr ≤ 0)))) ∧
    (((3 : ℤ) = 0 → shouldReviewCommand ⟨some 3, some 0, some 0, none, none⟩ 25 0 = true) ∧
      ((1 : ℤ) ≤ 3 → (3 : ℤ) ≤ 5 →
        (shouldReviewCommand ⟨some 3, some 0, some 0, none, none⟩ 25 0 = true ↔
          (srsIntervalAt 3 ≤ 25 ∨
            ∃ nr, (⟨some 3, some 0, some 0, none, none⟩ : CmdState).nextReview = some nr ∧
              nr ≠ 0 ∧ nr ≤ 0)))) :=
  ⟨shouldReview_characterisation ⟨some 0, some 0, some 0, none, none⟩ 0 0 0 rfl,
    shouldReview_characterisation ⟨some 3, some 0, some 0, none, none⟩ 3 25 0 rfl⟩

/-- C7: `recordAttempt` applies `updateCombo`, raises `bestCombo` to the
max of old and new, bumps the matching counter, adds
`calculateScore` computed with the post-update combo only on success,
and on failure awards 0, leaves the total unchanged and resets the combo
to 0. -/
theorem recordAttempt_spec (s : SessionScorer) (isCorrect : Bool)
    (timeRemaining maxTime level : ℚ) :
    ((s.recordAttempt isCorrect timeRemaining maxTime level).1.currentCombo =
        updateCombo isCorrect s.currentCombo) ∧
    ((s.recordAttempt isCorrect timeRemaining maxTime level).1.bestCombo =
        max s.bestCombo
          (s.recordAttempt isCorrect timeRemaining maxTime level).1.currentCombo) ∧
    (isCorrect = true →
      (s.recordAttempt isCorrect timeRemaining maxTime level).1.correctCount =
          s.correctCount + 1 ∧
      (s.recordAttempt isCorrect timeRemaining maxTime level).1.incorrectCount =
          s.incorrectCount ∧
      (s.recordAttempt isCorrect timeRemaining maxTime level).2.score =
          calculateScore timeRemaining maxTime level
            (updateCombo true s.currentCombo) ∧
      (s.recordAttempt isCorrect timeRemaining maxTime level).1.totalScore =
          s.totalScore + (s.recordAttempt isCorrect timeRemaining maxTime level).2.score) ∧
    (isCorrect = false →
      (s.recordAttempt isCorrect timeRemaining maxTime level).1.incorrectCount =
          s.incorrectCount + 1 ∧
      (s.recordAttempt isCorrect timeRemaining maxTime level).1.correctCount =
          s.correctCount ∧
      (s.recordAttempt isCorrect timeRemaining maxTime level).2.score = 0 ∧
      (s.recordAttempt isCorrect timeRemaining maxTime level).1.totalScore =
          s.totalScore ∧
      (s.recordAttempt isCorrect timeRemaining maxTime level).1.currentCombo = 0) := by
  cases isCorrect with
  | false =>
    refine ⟨?_, ?_, ?_, ?_⟩
    · simp [SessionScorer.recordAttempt]
    · simp only [SessionScorer.recordAttempt]
      rcases le_or_lt (updateCombo false s.currentCombo) s.bestCombo with h | h
      · simp [if_neg (not_lt.mpr h), max_eq_left h]
      · simp [if_pos h, max_eq_right h.le]
    · intro h
      cases h
    · intro _
      refine ⟨rfl, rfl, rfl, rfl, ?_⟩
      simp [SessionScorer.recordAttempt, updateCombo]
  | true =>
    refine ⟨?_, ?_, ?_, ?_⟩
    · simp [SessionScorer.recordAttempt]
    · simp only [SessionScorer.recordAttempt]
      rcases le_or_lt (updateCombo true s.currentCombo) s.bestCombo with h | h
      · simp [if_neg (not_lt.mpr h), max_eq_left h]
      · simp [if_pos h, max_eq_right h.le]
    · intro _
      refine ⟨rfl, rfl, ?_, ?_⟩ <;> simp [SessionScorer.recordAttempt]
    · intro h
      cases h

/-- Witness for C7 at a fresh scorer recording a correct attempt. -/
theorem recordAttempt_spec_witness :
    ((SessionScorer.recordAttempt ⟨0, 0, 0, 0, 0⟩ true 1 2 3).1.currentCombo =
        updateCombo true (SessionScorer.mk 0 0 0 0 0).currentCombo) ∧
    ((SessionScorer.recordAttempt ⟨0, 0, 0, 0, 0⟩ true 1 2 3).1.bestCombo =
        max (SessionScorer.mk 0 0 0 0 0).bestCombo
          (SessionScorer.recordAttempt ⟨0, 0, 0, 0, 0⟩ true 1 2 3).1.currentCombo) ∧
    (true = true →
      (SessionScorer.recordAttempt ⟨0, 0, 0, 0, 0⟩ true 1 2 3).1.correctCount =
          (SessionScorer.mk 0 0 0 0 0).correctCount + 1 ∧
      (SessionScorer.recordAttempt ⟨0, 0, 0, 0, 0⟩ true 1 2 3).1.incorrectCount =
          (SessionScorer.mk 0 0 0 0 0).incorrectCount ∧
      (SessionScorer.recordAttempt ⟨0, 0, 0, 0, 0⟩ true 1 2 3).2.score =
          calculateScore 1 2 3
            (updateCombo true (SessionScorer.mk 0 0 0 0 0).currentCombo) ∧
      (SessionScorer.recordAttempt ⟨0, 0, 0, 0, 0⟩ true 1 2 3).1.totalScore =
          (SessionScorer.mk 0 0 0 0 0).totalScore +
            (SessionScorer.recordAttempt ⟨0, 0, 0, 0, 0⟩ true 1 2 3).2.score) ∧
    (true = false →
      (SessionScorer.recordAttempt ⟨0, 0, 0, 0, 0⟩ true 1 2 3).1.incorrectCount =
          (SessionScorer.mk 0 0 0 0 0).incorrectCount + 1 ∧
      (SessionScorer.recordAttempt ⟨0, 0, 0, 0, 0⟩ true 1 2 3).1.correctCount =
          (SessionScorer.mk 0 0 0 0 0).correctCount ∧
      (SessionScorer.recordAttempt ⟨0, 0, 0, 0, 0⟩ true 1 2 3).2.score = 0 ∧
      (SessionScorer.recordAttempt ⟨0, 0, 0, 0, 0⟩ true 1 2 3).1.totalScore =
          (SessionScorer.mk 0 0 0 0 0).totalScore ∧
      (SessionScorer.recordAttempt ⟨0, 0, 0, 0, 0⟩ true 1 2 3).1.currentCombo = 0) :=
  recordAttempt_spec ⟨0, 0, 0, 0, 0⟩ true 1 2 3

/-- C8: `calculateScore` equals the clamped closed-form formula on all
inputs, and takes the three stipulated values. -/
theorem calculateScore_spec (timeRemaining maxTime level combo : ℚ) :
    calculateScore timeRemaining maxTime level combo =
      specScore timeRemaining maxTime level combo ∧
    calculateScore 2 2 3 12 = 1800 ∧
    calculateScore 1 2 5 7 = 1500 ∧
    calculateScore 0 2 0 0 = 100 := by
  refine ⟨?_, by norm_num [calculateScore, getComboMultiplier],
    by norm_num [calculateScore, getComboMultiplier],
    by norm_num [calculateScore, getComboMultiplier]⟩
  have htr : (if timeRemaining < 0 then (0 : ℚ) else timeRemaining) =
      max 0 timeRemaining := by
    rcases lt_or_le timeRemaining 0 with h | h
    · rw [if_pos h, max_eq_left h.le]
    · rw [if_neg (not_lt.mpr h), max_eq_right h]
  have hlv : (if 5 < (if level < 0 then (0 : ℚ) else level) then (5 : ℚ)
      else if level < 0 then (0 : ℚ) else level) = min 5 (max 0 level) := by
    rcases lt_or_le level 0 with h | h
    · rw [if_pos h]
      rw [if_neg (by norm_num), max_eq_left h.le, min_eq_right (by norm_num)]
    · rw [if_neg (not_lt.mpr h), max_eq_right h]
      rcases lt_or_le 5 level with h5 | h5
      · rw [if_pos h5, min_eq_left h5.le]
      · rw [if_neg (not_lt.mpr h5), min_eq_right h5]
  have hcc : (if combo < 0 then (0 : ℚ) else combo) = max 0 combo := by
    rcases lt_or_le combo 0 with h | h
    · rw [if_pos h, max_eq_left h.le]
    · rw [if_neg (not_lt.mpr h), max_eq_right h]
  have hcm : getComboMultiplier (max 0 combo) = ⌊(max 0 combo) / 5⌋ + 1 := by
    simp only [getComboMultiplier, if_neg (not_lt.mpr (le_max_left 0 combo))]
  simp only [calculateScore, specScore, htr, hcc, hcm]
  rw [hlv]
  push_cast
  ring_nf

/-- Witness for C8 (the statement's binders are the score arguments;
instantiate them concretely). -/
theorem calculateScore_spec_witness :
    (calculateScore 3 4 2 6 = specScore 3 4 2 6 ∧
      calculateScore 2 2 3 12 = 1800 ∧
      calculateScore 1 2 5 7 = 1500 ∧
      calculateScore 0 2 0 0 = 100) :=
  calculateScore_spec 3 4 2 6

lemma updateRemaining_fst_nonneg (s : TimerState) (now : ℚ)
    (h : 0 ≤ s.remainingTime) : 0 ≤ (updateRemaining s now).1 := by
  unfold updateRemaining
  split
  · exact h
  · exact le_max_left 0 _

lemma updateRemaining_snd_nonneg (s : TimerState) (now : ℚ)
    (h : 0 ≤ s.remainingTime) : 0 ≤ (updateRemaining s now).2.remainingTime := by
  unfold updateRemaining
  split
  · exact h
  · exact le_max_left 0 _

lemma tickTimer_nonneg (s : TimerState) (now : ℚ)
    (h : 0 ≤ s.remainingTime) : 0 ≤ (tickTimer s now).remainingTime := by
  unfold tickTimer
  split
  · split
    · simp [stopTimer]
    · exact updateRemaining_snd_nonneg s now h
  · exact h

/-- After every `tick`, the stored remaining time is non-negative
whatever it was before, because it has just been clamped (or zeroed by
the stop on expiry). -/
lemma tickTimer_active_nonneg (s : TimerState) (now : ℚ)
    (hr : s.isRunning = true) (hp : s.isPaused = false)
    (ha : s.intervalActive = true) : 0 ≤ (tickTimer s now).remainingTime := by
  unfold tickTimer
  rw [if_pos ha]
  split
  · simp [stopTimer]
  · simp only [updateRemaining, hr, hp]
    simp

/-- After a fresh or resumed `start`, the synchronous initial tick
re-clamps `remainingTime`, so non-negativity holds even when `addTime`
drove `timeLimit` negative beforehand. -/
lemma startTimer_nonneg (s : TimerState) (now : ℚ)
    (h : 0 ≤ s.remainingTime) : 0 ≤ (startTimer s now).remainingTime := by
  unfold startTimer
  split
  · exact h
  · split
    · exact tickTimer_active_nonneg _ now rfl rfl rfl
    · next hp =>
      refine tickTimer_active_nonneg _ now rfl ?_ rfl
      simp only [Bool.not_eq_true] at hp
      simpa using hp

/-- Each timer event preserves non-negativity of the stored remaining
time. -/
lemma applyEv_nonneg (s : TimerState) (ev : TimerEv)
    (h : 0 ≤ s.remainingTime) : 0 ≤ (applyEv s ev).remainingTime := by
  cases ev with
  | start now => exact startTimer_nonneg s now h
  | stop => simp [applyEv, stopTimer]
  | pause now =>
    simp only [applyEv, pauseTimer]
    split
    · exact h
    · exact h
  | addTime sec =>
    simp only [applyEv, addTime]
    simp
  | tick now => exact tickTimer_nonneg s now h

lemma runTimer_nonneg (evs : List TimerEv) (s : TimerState)
    (h : 0 ≤ s.remainingTime) : 0 ≤ (runTimer s evs).remainingTime := by
  induction evs generalizing s with
  | nil => exact h
  | cons ev evs ih => exact ih (applyEv s ev) (applyEv_nonneg s ev h)

lemma getRemaining_nonneg (s : TimerState) (now : ℚ)
    (h : 0 ≤ s.remainingTime) : 0 ≤ getRemaining s now := by
  unfold getRemaining
  split
  · exact h
  · exact updateRemaining_fst_nonneg s now h

lemma runTimer_append (s : TimerState) (evs : List TimerEv) (ev : TimerEv) :
    runTimer s (evs ++ [ev]) = applyEv (runTimer s evs) ev := by
  induction evs generalizing s with
  | nil => rfl
  | cons e es ih => exact ih (applyEv s e)

/-! Helper lemmas about the queue selection pipeline. -/

lemma mem_withIndex {cmds : List QCommand} :
    ∀ {k : ℕ} {d : DueCommand}, d ∈ withIndex cmds k →
      ∃ i, ∃ hi : i < cmds.length, d = mkDue (cmds.get ⟨i, hi⟩) (k + i) := by
  induction cmds with
  | nil =>
    intro k d h
    cases h
  | cons c cs ih =>
    intro k d h
    rcases List.mem_cons.mp h with h | h
    · exact ⟨0, Nat.succ_pos _, h⟩
    · obtain ⟨i, hi, hd⟩ := ih h
      refine ⟨i + 1, Nat.succ_lt_succ hi, ?_⟩
      have h2 : k + (i + 1) = (k + 1) + i := by omega
      rw [h2]
      exact hd

lemma mkDue_mem_withIndex {cmds : List QCommand} :
    ∀ {k i : ℕ} (hi : i < cmds.length),
      mkDue (cmds.get ⟨i, hi⟩) (k + i) ∈ withIndex cmds k := by
  induction cmds with
  | nil =>
    intro k i hi
    exact absurd hi (Nat.not_lt_zero i)
  | cons c cs ih =>
    intro k i hi
    cases i with
    | zero => exact List.mem_cons_self _ _
    | succ i =>
      have h2 : k + (i + 1) = (k + 1) + i := by omega
      rw [h2]
      exact List.mem_cons_of_mem _ (ih (Nat.lt_of_succ_lt_succ hi))

lemma isDue_eq_false_iff (now : ℚ) (d : DueCommand) :
    isDue now d = false ↔ ∃ q, d.nextReview = some q ∧ now < q := by
  cases hnr : d.nextReview with
  | none => simp [isDue, hnr]
  | some q => simp [isDue, hnr, not_le]

lemma dueOf_eq_nil_iff (cmds : List QCommand) (now : ℚ) :
    dueOf cmds now = [] ↔ ∀ c ∈ cmds, ∃ q, c.nextReview = some q ∧ now < q := by
  rw [dueOf, List.filter_eq_nil_iff]
  constructor
  · intro h c hc
    obtain ⟨n, hn⟩ := List.mem_iff_get.mp hc
    have hm := mkDue_mem_withIndex (k := 0) n.2
    have hne := h _ hm
    have hfalse : isDue now (mkDue (cmds.get ⟨n.1, n.2⟩) (0 + n.1)) = false := by
      cases hb : isDue now (mkDue (cmds.get ⟨n.1, n.2⟩) (0 + n.1)) with
      | false => rfl
      | true => exact absurd hb hne
    rw [← hn]
    exact (isDue_eq_false_iff _ _).mp hfalse
  · intro h d hd
    obtain ⟨i, hi, rfl⟩ := mem_withIndex hd
    have hq := h (cmds.get ⟨i, hi⟩) (List.get_mem _ _ _)
    have hfalse : isDue now (mkDue (cmds.get ⟨i, hi⟩) (0 + i)) = false :=
      (isDue_eq_false_iff _ _).mpr hq
    simpa using hfalse

lemma mem_poolOf_mem_dueOf {cmds : List QCommand} {ci : Option ℕ} {now : ℚ}
    {d : DueCommand} (h : d ∈ poolOf cmds ci now) : d ∈ dueOf cmds now := by
  simp only [poolOf] at h
  split at h
  · exact List.mem_of_mem_filter h
  · exact h

lemma poolOf_ne_nil {cmds : List QCommand} {ci : Option ℕ} {now : ℚ}
    (h : dueOf cmds now ≠ []) : poolOf cmds ci now ≠ [] := by
  simp only [poolOf]
  split
  · next hpos => exact List.length_pos.mp hpos
  · exact h

lemma scanPick_mem : ∀ (l : List (DueCommand × ℚ)) (r : ℚ) (c : DueCommand),
    scanPick l r = some c → ∃ w, (c, w) ∈ l := by
  intro l
  induction l with
  | nil =>
    intro r c h
    cases h
  | cons pw rest ih =>
    intro r c h
    obtain ⟨p, w⟩ := pw
    by_cases hle : r - w ≤ 0
    · rw [scanPick, if_pos hle] at h
      obtain rfl := Option.some.inj h
      exact ⟨w, List.mem_cons_self _ _⟩
    · rw [scanPick, if_neg hle] at h
      obtain ⟨w2, hw2⟩ := ih (r - w) c h
      exact ⟨w2, List.mem_cons_of_mem _ hw2⟩

lemma levelWeights_err : ∀ (xs : List (String × Option ℚ)),
    (∃ p ∈ xs, p.2 = none) →
    ∃ p ∈ xs, p.2 = none ∧ levelWeights xs = .error (missingLevelMsg p.1) := by
  intro xs
  induction xs with
  | nil =>
    rintro ⟨p, hp, _⟩
    cases hp
  | cons q rest ih =>
    rintro ⟨p, hp, hnone⟩
    obtain ⟨k, lv⟩ := q
    cases lv with
    | none => exact ⟨(k, none), List.mem_cons_self _ _, rfl, rfl⟩
    | some l =>
      have hex : ∃ p ∈ rest, p.2 = none := by
        rcases List.mem_cons.mp hp with h | h
        · subst h
          simp at hnone
        · exact ⟨p, h, hnone⟩
      obtain ⟨p2, hp2, hn2, herr⟩ := ih hex
      refine ⟨p2, List.mem_cons_of_mem _ hp2, hn2, ?_⟩
      simp only [levelWeights, herr]

lemma select_ok_none_iff {cmds : List QCommand} {ci : Option ℕ} {now : ℚ}
    {rand : Rand} :
    selectNextCommand (.arr cmds) ci now rand = .ok none ↔
      dueOf cmds now = [] := by
  constructor
  · intro h
    simp only [selectNextCommand] at h
    by_cases h0 : cmds.length = 0
    · rw [List.length_eq_zero] at h0
      subst h0
      rfl
    · rw [if_neg h0] at h
      by_cases h1 : (dueOf cmds now).length = 0
      · exact List.length_eq_zero.mp h1
      · exfalso
        rw [if_neg h1] at h
        have hpne : poolOf cmds ci now ≠ [] :=
          poolOf_ne_nil fun hc => h1 (by rw [hc]; rfl)
        have hppos : 0 < (poolOf cmds ci now).length := List.length_pos.mpr hpne
        by_cases h2 : 0 < (level0Of cmds ci now).length
        · rw [dif_pos h2] at h
          simp at h
        · rw [dif_neg h2] at h
          cases hw : levelWeights ((poolOf cmds ci now).map
              fun d => (d.keys, d.level)) with
          | error e =>
            rw [hw] at h
            simp at h
          | ok weights =>
            rw [hw] at h
            simp only [] at h
            by_cases ht : weights.foldl (fun sum w => sum + w) 0 = 0
            · rw [if_pos ht, dif_pos hppos] at h
              simp at h
            · rw [if_neg ht] at h
              cases hs : scanPick ((poolOf cmds ci now).zip weights) (rand.r *
                  weights.foldl (fun sum w => sum + w) 0) with
              | some c =>
                rw [hs] at h
                simp at h
              | none =>
                rw [hs, dif_pos hpne] at h
                simp at h
  · intro h
    simp only [selectNextCommand]
    by_cases h0 : cmds.length = 0
    · rw [if_pos h0]
    · rw [if_neg h0, if_pos (by rw [h]; rfl)]

lemma select_mem_pool {cmds : List QCommand} {ci : Option ℕ} {now : ℚ}
    {rand : Rand} {res : DueCommand}
    (h : selectNextCommand (.arr cmds) ci now rand = .ok (some res)) :
    res ∈ poolOf cmds ci now := by
  simp only [selectNextCommand] at h
  by_cases h0 : cmds.length = 0
  · rw [if_pos h0] at h
    simp at h
  · rw [if_neg h0] at h
    by_cases h1 : (dueOf cmds now).length = 0
    · rw [if_pos h1] at h
      simp at h
    · rw [if_neg h1] at h
      by_cases h2 : 0 < (level0Of cmds ci now).length
      · rw [dif_pos h2] at h
        simp only [Except.ok.injEq, Option.some.injEq] at h
        subst h
        exact List.mem_of_mem_filter (List.get_mem _ _ _)
      · rw [dif_neg h2] at h
        cases hw : levelWeights ((poolOf cmds ci now).map
            fun d => (d.keys, d.level)) with
        | error e =>
          rw [hw] at h
          simp at h
        | ok weights =>
          rw [hw] at h
          simp only [] at h
          by_cases ht : weights.foldl (fun sum w => sum + w) 0 = 0
          · rw [if_pos ht] at h
            by_cases hp : 0 < (poolOf cmds ci now).length
            · rw [dif_pos hp] at h
              simp only [Except.ok.injEq, Option.some.injEq] at h
              subst h
              exact List.get_mem _ _ _
            · rw [dif_neg hp] at h
              simp at h
          · rw [if_neg ht] at h
            cases hs : scanPick ((poolOf cmds ci now).zip weights) (rand.r *
                weights.foldl (fun sum w => sum + w) 0) with
            | some c =>
              rw [hs] at h
              simp only [Except.ok.injEq, Option.some.injEq] at h
              subst h
              obtain ⟨w, hw2⟩ := scanPick_mem _ _ _ hs
              exact (List.of_mem_zip hw2).1
            | none =>
              rw [hs] at h
              by_cases hp : poolOf cmds ci now ≠ []
              · rw [dif_pos hp] at h
                simp only [Except.ok.injEq, Option.some.injEq] at h
                subst h
                exact List.getLast_mem _
              · rw [dif_neg hp] at h
                simp at h

lemma select_level0 {cmds : List QCommand} {ci : Option ℕ} {now : ℚ}
    {rand : Rand} {res : DueCommand}
    (h2 : 0 < (level0Of cmds ci now).length)
    (h : selectNextCommand (.arr cmds) ci now rand = .ok (some res)) :
    res ∈ level0Of cmds ci now := by
  simp only [selectNextCommand] at h
  by_cases h0 : cmds.length = 0
  · exfalso
    rw [List.length_eq_zero] at h0
    subst h0
    simp [level0Of, poolOf, dueOf, withIndex] at h2
  · rw [if_neg h0] at h
    by_cases h1 : (dueOf cmds now).length = 0
    · exfalso
      have hnil : dueOf cmds now = [] := List.length_eq_zero.mp h1
      simp [level0Of, poolOf, hnil] at h2
    · rw [if_neg h1, dif_pos h2] at h
      simp only [Except.ok.injEq, Option.some.injEq] at h
      subst h
      exact List.get_mem _ _ _

/-- C5 counterexample: the claim "while stopped it returns 0" fails once
`addTime` follows `stop`: from a 5-second timer, after
`start(0); stop(); addTime(5)` the timer is stopped yet
`getRemaining()` returns 5, because `addTime` raises the stored
remaining value that `stop` had zeroed. -/
theorem timer_counterexample :
    (runTimer (initTimer 5) [.start 0, .stop, .addTime 5]).isRunning = false ∧
    (runTimer (initTimer 5) [.start 0, .stop, .addTime 5]).isPaused = false ∧
    getRemaining (runTimer (initTimer 5) [.start 0, .stop, .addTime 5]) 0 = 5 := by
  refine ⟨rfl, rfl, ?_⟩
  norm_num [runTimer, applyEv, initTimer, startTimer, tickTimer, updateRemaining,
    stopTimer, addTime, getRemaining]

/-- C5 amended: for a timer created with a non-negative duration, after
any interleaving of start/pause/stop/addTime calls and ticks,
`getRemaining()` is non-negative; while paused it returns the frozen
stored value; immediately after a `stop` (before any further `addTime`)
it returns 0; and while running un-paused it returns the total time
minus elapsed time clamped at 0. -/
theorem timer_getRemaining_spec (timeLimit : ℚ) (evs : List TimerEv)
    (now : ℚ) (h : 0 ≤ timeLimit) :
    0 ≤ getRemaining (runTimer (initTimer timeLimit) evs) now ∧
    ((runTimer (initTimer timeLimit) evs).isPaused = true →
      getRemaining (runTimer (initTimer timeLimit) evs) now =
        (runTimer (initTimer timeLimit) evs).remainingTime) ∧
    getRemaining (runTimer (initTimer timeLimit) (evs ++ [.stop])) now = 0 ∧
    ((runTimer (initTimer timeLimit) evs).isRunning = true →
      (runTimer (initTimer timeLimit) evs).isPaused = false →
      getRemaining (runTimer (initTimer timeLimit) evs) now =
        max 0 ((runTimer (initTimer timeLimit) evs).timeLimit -
          (now - (runTimer (initTimer timeLimit) evs).startTime.getD 0) / 1000 -
          (runTimer (initTimer timeLimit) evs).elapsedBeforePause)) := by
  refine ⟨?_, ?_, ?_, ?_⟩
  · exact getRemaining_nonneg _ now (runTimer_nonneg evs _ h)
  · intro hp
    simp [getRemaining, hp]
  · rw [runTimer_append]
    simp [applyEv, stopTimer, getRemaining, updateRemaining]
  · intro hr hp
    simp [getRemaining, hp, updateRemaining, hr]

/-- Witness for C5 (amended) on a concrete run: start at time 0, pause
at time 500, then resume. -/
theorem timer_getRemaining_spec_witness :
    (0 ≤ getRemaining (runTimer (initTimer 3) [.start 0, .pause 500, .start 600]) 700 ∧
      ((runTimer (initTimer 3) [.start 0, .pause 500, .start 600]).isPaused = true →
        getRemaining (runTimer (initTimer 3) [.start 0, .pause 500, .start 600]) 700 =
          (runTimer (initTimer 3) [.start 0, .pause 500, .start 600]).remainingTime) ∧
      getRemaining (runTimer (initTimer 3)
        ([.start 0, .pause 500, .start 600] ++ [.stop])) 700 = 0 ∧
      ((runTimer (initTimer 3) [.start 0, .pause 500, .start 600]).isRunning = true →
        (runTimer (initTimer 3) [.start 0, .pause 500, .start 600]).isPaused = false →
        getRemaining (runTimer (initTimer 3) [.start 0, .pause 500, .start 600]) 700 =
          max 0 ((runTimer (initTimer 3) [.start 0, .pause 500, .start 600]).timeLimit -
            (700 - (runTimer (initTimer 3)
              [.start 0, .pause 500, .start 600]).startTime.getD 0) / 1000 -
            (runTimer (initTimer 3)
              [.start 0, .pause 500, .start 600]).elapsedBeforePause))) :=
  timer_getRemaining_spec 3 [.start 0, .pause 500, .start 600] 700 (by norm_num)

/-- C4: `selectNextCommand` returns null exactly when every command has
a future `nextReview` (vacuously, also when the array is empty); it
never returns a command whose `nextReview` is set and in the future; and
whenever the candidate pool contains a level-0 command, the selection
has level 0 — for every outcome of the random draws. -/
theorem selectNext_spec (cmds : List QCommand) (ci : Option ℕ) (now : ℚ)
    (rand : Rand) :
    (selectNextCommand (.arr cmds) ci now rand = .ok none ↔
      ∀ c ∈ cmds, ∃ q, c.nextReview = some q ∧ now < q) ∧
    (∀ res, selectNextCommand (.arr cmds) ci now rand = .ok (some res) →
      ∀ q, res.nextReview = some q → q ≤ now) ∧
    ((∃ d ∈ poolOf cmds ci now, d.level = some 0) →
      ∀ res, selectNextCommand (.arr cmds) ci now rand = .ok (some res) →
        res.level = some 0) := by
  refine ⟨select_ok_none_iff.trans (dueOf_eq_nil_iff cmds now), ?_, ?_⟩
  · intro res hres q hq
    have hd := mem_poolOf_mem_dueOf (select_mem_pool hres)
    have hdue := List.of_mem_filter hd
    simp only [isDue, hq] at hdue
    exact of_decide_eq_true hdue
  · rintro ⟨d, hd, hd0⟩ res hres
    have h2 : 0 < (level0Of cmds ci now).length :=
      List.length_pos_of_mem
        (List.mem_filter.mpr ⟨hd, by simp [hd0]⟩)
    have hmem := select_level0 h2 hres
    simp only [level0Of] at hmem
    have hp := List.of_mem_filter hmem
    simpa using hp

/-- Witness for C4 on a one-command queue due in the past: the selected
command's `nextReview` is at most `now`, and the level-0 priority
conclusion holds. -/
theorem selectNext_spec_witness :
    ((-1 : ℚ) ≤ 0) ∧
      (mkDue ⟨"dd", some 0, some (-1)⟩ 0).level = some 0 :=
  ⟨(selectNext_spec [⟨"dd", some 0, some (-1)⟩] none 0 ⟨0, 0, 0⟩).2.1
      (mkDue ⟨"dd", some 0, some (-1)⟩ 0) (by rfl) (-1) rfl,
    (selectNext_spec [⟨"dd", some 0, some (-1)⟩] none 0 ⟨0, 0, 0⟩).2.2
      ⟨mkDue ⟨"dd", some 0, some (-1)⟩ 0, by decide, rfl⟩
      (mkDue ⟨"dd", some 0, some (-1)⟩ 0) (by rfl)⟩

/-- C10: whenever `selectNextCommand` returns non-null, the returned
value is the shallow copy of the selected input command extended with
`originalIndex` equal to that command's index in the input array.  (The
embedding is a pure function of the input list, which is therefore
never mutated.) -/
theorem selectNext_returns_indexed_copy (cmds : List QCommand)
    (ci : Option ℕ) (now : ℚ) (rand : Rand) (res : DueCommand)
    (h : selectNextCommand (.arr cmds) ci now rand = .ok (some res)) :
    ∃ i, ∃ hi : i < cmds.length,
      res = mkDue (cmds.get ⟨i, hi⟩) i ∧ res.originalIndex = i := by
  have hd := mem_poolOf_mem_dueOf (select_mem_pool h)
  have hw := List.mem_of_mem_filter hd
  obtain ⟨i, hi, rfl⟩ := mem_withIndex hw
  refine ⟨i, hi, ?_, ?_⟩
  · rw [Nat.zero_add]
  · rw [mkDue, Nat.zero_add]

/-- Witness for C10 on a one-command queue. -/
theorem selectNext_returns_indexed_copy_witness :
    ∃ i, ∃ hi : i < ([(⟨"dd", some 0, none⟩ : QCommand)]).length,
      mkDue ⟨"dd", some 0, none⟩ 0 =
        mkDue (([(⟨"dd", some 0, none⟩ : QCommand)]).get ⟨i, hi⟩) i ∧
      (mkDue (⟨"dd", some 0, none⟩ : QCommand) 0).originalIndex = i :=
  selectNext_returns_indexed_copy [⟨"dd", some 0, none⟩] none 0 ⟨0, 0, 0⟩
    (mkDue ⟨"dd", some 0, none⟩ 0) (by rfl)

/-- C6 counterexample: an input whose second command lacks a numeric
level, while the first is a due level-0 command.  The claim demands a
type error naming the offending key, but the level-0 priority branch
returns the first command without ever validating the second. -/
theorem queue_fail_fast_counterexample :
    (⟨"bb", none, none⟩ : QCommand) ∈
        ([⟨"aa", some 0, none⟩, ⟨"bb", none, none⟩] : List QCommand) ∧
    (⟨"bb", none, none⟩ : QCommand).level = none ∧
    selectNextCommand (.arr [⟨"aa", some 0, none⟩, ⟨"bb", none, none⟩])
        none 0 ⟨0, 0, 0⟩ =
      .ok (some (mkDue ⟨"aa", some 0, none⟩ 0)) :=
  ⟨by decide, rfl, by rfl⟩

/-- C6 amended: both functions raise the type error on a non-array
argument; `getCommandWeights` fails fast on any input containing a
command without a numeric level, naming the offending command's key;
`selectNextCommand` raises that error only when its weighted branch is
reached — the candidate pool has no level-0 command and some pool member
lacks a numeric level — while commands filtered out as not due, or
bypassed by the level-0 priority, are never validated. -/
theorem queue_type_errors (cmds : List QCommand) (ci : Option ℕ)
    (now : ℚ) (rand : Rand) :
    (getCommandWeights .notArray = .error "commands must be an array") ∧
    (selectNextCommand .notArray ci now rand =
      .error "commands must be an array") ∧
    ((∃ c ∈ cmds, c.level = none) →
      ∃ c ∈ cmds, c.level = none ∧
        getCommandWeights (.arr cmds) = .error (missingLevelMsg c.keys)) ∧
    ((level0Of cmds ci now).length = 0 →
      (∃ d ∈ poolOf cmds ci now, d.level = none) →
      ∃ d ∈ poolOf cmds ci now, d.level = none ∧
        selectNextCommand (.arr cmds) ci now rand =
          .error (missingLevelMsg d.keys)) := by
  refine ⟨rfl, rfl, ?_, ?_⟩
  · rintro ⟨c, hc, hcn⟩
    have herr := levelWeights_err (cmds.map fun c => (c.keys, c.level))
      ⟨(c.keys, c.level), List.mem_map_of_mem _ hc, hcn⟩
    obtain ⟨p, hp, hpn, herr2⟩ := herr
    obtain ⟨c2, hc2, hpc2⟩ := List.mem_map.mp hp
    subst hpc2
    exact ⟨c2, hc2, hpn, herr2⟩
  · rintro hlen0 ⟨d, hd, hdn⟩
    have hduene : dueOf cmds now ≠ [] :=
      List.ne_nil_of_mem (mem_poolOf_mem_dueOf hd)
    have hcmdne : ¬ cmds.length = 0 := by
      intro h0
      rw [List.length_eq_zero] at h0
      subst h0
      exact hduene rfl
    have herr := levelWeights_err ((poolOf cmds ci now).map
        fun d => (d.keys, d.level))
      ⟨(d.keys, d.level), List.mem_map_of_mem _ hd, hdn⟩
    obtain ⟨p, hp, hpn, herr2⟩ := herr
    obtain ⟨d2, hd2, hpd2⟩ := List.mem_map.mp hp
    subst hpd2
    refine ⟨d2, hd2, hpn, ?_⟩
    simp only [selectNextCommand]
    rw [if_neg hcmdne,
      if_neg (fun hc => hduene (List.length_eq_zero.mp hc)),
      dif_neg (by omega), herr2]

/-- Witness for C6 (amended), applying the weighted-branch clause to a
queue whose only command has no numeric level and an empty (falsy)
key. -/
theorem queue_type_errors_witness :
    ∃ d ∈ poolOf [(⟨"", none, none⟩ : QCommand)] none 0, d.level = none ∧
      selectNextCommand (.arr [(⟨"", none, none⟩ : QCommand)]) none 0 ⟨0, 0, 0⟩ =
        .error (missingLevelMsg d.keys) :=
  (queue_type_errors [⟨"", none, none⟩] none 0 ⟨0, 0, 0⟩).2.2.2 (by decide)
    ⟨mkDue ⟨"", none, none⟩ 0, by decide, rfl⟩

end KeyBlitz
